import Mathlib

/-!
# Random points in a circle: a shallow embedding of `main.cpp`

The program keeps two lists of 2D points, `nonUniformPoints` and
`uniformPoints`, and refills them from the C library's `rand()`.

Modelling choices.

* The code is translated once, generically in the scalar type `F` that stands
  for `float`; the functions of `<cmath>` it calls (`sqrt`, `cos`, `sin`) and
  the constant `M_PI` are the fields of the class `CMath`.  All definitions
  are therefore ordinary computable definitions.  The theorems about
  distances and angles instantiate `F` with the real numbers (exact
  arithmetic, `Real.sqrt`, `Real.cos`, `Real.sin`, `Real.pi`); rounding of
  `float` is not modelled.
* `int` values are integers.  `RAND_MAX` comes from `<cstdlib>`, not from this
  repository, and is a parameter of every function that uses it.
* The hidden state of `rand()` is the sequence of values it is still going to
  return (`State.randSeq`); a call of `rand()` returns its head and keeps the
  tail.
* `std::list::push_back` appends at the end of a `List`; `clear` gives `[]`.
* The two GLUT/GLU calls that touch state outside the lists are recorded in
  the state: `gluOrtho2D` stores its four arguments, `glutPostRedisplay`
  raises a flag.
-/

set_option linter.unusedVariables false

namespace RandomPointInCircle

/-! ## Scalars and vectors -/

/-- The part of `<cmath>` used by `main.cpp`, for a scalar type `F`. -/
class CMath (F : Type) where
  /-- The function `sqrt`. -/
  sqrt : F → F
  /-- The function `cos`. -/
  cos : F → F
  /-- The function `sin`. -/
  sin : F → F
  /-- The constant `M_PI`. -/
  M_PI : F

/-- The type `glm::vec2`: a pair of scalar coordinates. -/
structure vec2 (F : Type) where
  x : F
  y : F

/-- Exact real arithmetic as the interpretation of `<cmath>`. -/
noncomputable instance realCMath : CMath ℝ where
  sqrt := Real.sqrt
  cos := Real.cos
  sin := Real.sin
  M_PI := Real.pi

/-! ## Constants (`main.cpp`, lines 22-30) -/

/-- Line 23: `const int SCREEN_WIDTH = 700;` -/
def SCREEN_WIDTH : ℤ := 700

/-- Line 24: `const int SCREEN_HEIGHT = 350;` -/
def SCREEN_HEIGHT : ℤ := 350

/-- Line 27: `const int CIRCLE_RADIUS = 100;` -/
def CIRCLE_RADIUS : ℤ := 100

section Program

variable {F : Type} [Add F] [Mul F] [Div F] [IntCast F] [CMath F]

/-- Line 28: `const float TWICE_PI = 2.0f * M_PI;` -/
def TWICE_PI : F := ((2 : ℤ) : F) * CMath.M_PI

/-- Line 29: `const vec2 NON_UNIFORM_CIRCLE_CENTER(150, 150);` -/
def NON_UNIFORM_CIRCLE_CENTER : vec2 F := ⟨((150 : ℤ) : F), ((150 : ℤ) : F)⟩

/-- Line 30: `const vec2 UNIFORM_CIRCLE_CENTER(500, 150);` -/
def UNIFORM_CIRCLE_CENTER : vec2 F := ⟨((500 : ℤ) : F), ((150 : ℤ) : F)⟩

/-! ## Program state -/

/-- The mutable state of the program: the two global lists of line 33, the
remaining outputs of `rand()`, the projection set by `gluOrtho2D` (left,
right, bottom, top; `none` before `init`), and whether a redisplay has been
posted. -/
structure State (F : Type) where
  nonUniformPoints : List (vec2 F)
  uniformPoints : List (vec2 F)
  randSeq : ℕ → ℤ
  projection : Option (F × F × F × F)
  redisplayPosted : Bool

/-- One call of `rand()`: the next value of the sequence, and the state in
which that value has been consumed. -/
def rand (s : State F) : ℤ × State F :=
  (s.randSeq 0, { s with randSeq := fun i => s.randSeq (i + 1) })

/-! ## The two samplers (lines 35-75) -/

/-- Line 38: `float randX = sqrt(float(rand()) / float(RAND_MAX)) * CIRCLE_RADIUS;`
as a function of the value `k1` that `rand()` returned. -/
def addUniformPoint.randX (RAND_MAX k1 : ℤ) : F :=
  CMath.sqrt ((k1 : F) / (RAND_MAX : F)) * (CIRCLE_RADIUS : F)

/-- Line 41: `float rotationAngle = (float(rand()) / float(RAND_MAX)) * TWICE_PI;`
as a function of the value `k2` that `rand()` returned. -/
def addUniformPoint.rotationAngle (RAND_MAX k2 : ℤ) : F :=
  ((k2 : F) / (RAND_MAX : F)) * TWICE_PI

/-- Lines 35-54: `void addUniformPoint()`. -/
def addUniformPoint (RAND_MAX : ℤ) (s : State F) : State F :=
  let (k1, s1) := rand s
  let randX : F := addUniformPoint.randX RAND_MAX k1
  let (k2, s2) := rand s1
  let rotationAngle : F := addUniformPoint.rotationAngle RAND_MAX k2
  -- rotate the point
  let randomPoint : vec2 F := ⟨randX * CMath.cos rotationAngle, randX * CMath.sin rotationAngle⟩
  -- place the point relative to the centre
  let randomPoint : vec2 F :=
    ⟨randomPoint.x + (UNIFORM_CIRCLE_CENTER : vec2 F).x,
     randomPoint.y + (UNIFORM_CIRCLE_CENTER : vec2 F).y⟩
  { s2 with uniformPoints := s2.uniformPoints ++ [randomPoint] }

/-- Line 59: `float randX = (float(rand()) / float(RAND_MAX)) * CIRCLE_RADIUS;`
as a function of the value `k1` that `rand()` returned. -/
def addNonUniformPoint.randX (RAND_MAX k1 : ℤ) : F :=
  ((k1 : F) / (RAND_MAX : F)) * (CIRCLE_RADIUS : F)

/-- Line 62: `float rotationAngle = (float(rand()) / float(RAND_MAX)) * TWICE_PI;`
as a function of the value `k2` that `rand()` returned. -/
def addNonUniformPoint.rotationAngle (RAND_MAX k2 : ℤ) : F :=
  ((k2 : F) / (RAND_MAX : F)) * TWICE_PI

/-- Lines 56-75: `void addNonUniformPoint()`. -/
def addNonUniformPoint (RAND_MAX : ℤ) (s : State F) : State F :=
  let (k1, s1) := rand s
  let randX : F := addNonUniformPoint.randX RAND_MAX k1
  let (k2, s2) := rand s1
  let rotationAngle : F := addNonUniformPoint.rotationAngle RAND_MAX k2
  -- rotate the point
  let randomPoint : vec2 F := ⟨randX * CMath.cos rotationAngle, randX * CMath.sin rotationAngle⟩
  -- place the point relative to the centre
  let randomPoint : vec2 F :=
    ⟨randomPoint.x + (NON_UNIFORM_CIRCLE_CENTER : vec2 F).x,
     randomPoint.y + (NON_UNIFORM_CIRCLE_CENTER : vec2 F).y⟩
  { s2 with nonUniformPoints := s2.nonUniformPoints ++ [randomPoint] }

/-! ## Regeneration and the event handlers (lines 77-105, 153-161) -/

/-- The loop `for(int i = 0; i < n; i++) body();` for a body that does not
read `i`: `body` is run `n` times (not at all when `n ≤ 0`). -/
def forLoop {σ : Type} (body : σ → σ) : ℕ → σ → σ
  | 0, s => s
  | n + 1, s => forLoop body n (body s)

/-- Line 82: `const int SAMPLES = 5000;` -/
def generatePoints.SAMPLES : ℤ := 5000

/-- Lines 77-89: `void generatePoints()`. -/
def generatePoints (RAND_MAX : ℤ) (s : State F) : State F :=
  let s := { s with nonUniformPoints := [] }
  let s := { s with uniformPoints := [] }
  let s := forLoop (addNonUniformPoint RAND_MAX) generatePoints.SAMPLES.toNat s
  forLoop (addUniformPoint RAND_MAX) generatePoints.SAMPLES.toNat s

/-- The call `glutPostRedisplay()`. -/
def glutPostRedisplay (s : State F) : State F :=
  { s with redisplayPosted := true }

/-- Lines 92-105: `void keyboard(unsigned char key, int x, int y)`; `key` is
the value of the byte. -/
def keyboard (RAND_MAX : ℤ) (key : ℕ) (x y : ℤ) (s : State F) : State F :=
  let s :=
    if key = Char.toNat 'a' then generatePoints RAND_MAX s
    else if key = Char.toNat 'A' then generatePoints RAND_MAX s
    else s
  glutPostRedisplay s

/-- Lines 153-161: `void init()`.  `seeded` is the sequence of values that
`rand()` returns after `srand(unsigned(time(0)))`. -/
def init (RAND_MAX : ℤ) (seeded : ℕ → ℤ) (s : State F) : State F :=
  -- gluOrtho2D(0, SCREEN_WIDTH, 0, SCREEN_HEIGHT)
  let ortho : F × F × F × F :=
    (((0 : ℤ) : F), (SCREEN_WIDTH : F), ((0 : ℤ) : F), (SCREEN_HEIGHT : F))
  let s := { s with projection := some ortho }
  let s := { s with randSeq := seeded }
  generatePoints RAND_MAX s

/-! ## Notions used to state the properties -/

/-- The point that `addUniformPoint` pushes when its two calls of `rand()`
return `k1` and `k2` (lines 38-51 with the draws made explicit). -/
def addUniformPoint.randomPoint (RAND_MAX k1 k2 : ℤ) : vec2 F :=
  ⟨addUniformPoint.randX RAND_MAX k1 * CMath.cos (addUniformPoint.rotationAngle RAND_MAX k2)
      + (UNIFORM_CIRCLE_CENTER : vec2 F).x,
   addUniformPoint.randX RAND_MAX k1 * CMath.sin (addUniformPoint.rotationAngle RAND_MAX k2)
      + (UNIFORM_CIRCLE_CENTER : vec2 F).y⟩

/-- The point that `addNonUniformPoint` pushes when its two calls of `rand()`
return `k1` and `k2` (lines 59-72 with the draws made explicit). -/
def addNonUniformPoint.randomPoint (RAND_MAX k1 k2 : ℤ) : vec2 F :=
  ⟨addNonUniformPoint.randX RAND_MAX k1
      * CMath.cos (addNonUniformPoint.rotationAngle RAND_MAX k2)
      + (NON_UNIFORM_CIRCLE_CENTER : vec2 F).x,
   addNonUniformPoint.randX RAND_MAX k1
      * CMath.sin (addNonUniformPoint.rotationAngle RAND_MAX k2)
      + (NON_UNIFORM_CIRCLE_CENTER : vec2 F).y⟩

/-- The points pushed by `n` successive calls of a sampler whose point is
`pt k1 k2`, when `rand()` returns the sequence `draws`. -/
def pushed (pt : ℤ → ℤ → vec2 F) (draws : ℕ → ℤ) (n : ℕ) : List (vec2 F) :=
  (List.range n).map fun i => pt (draws (2 * i)) (draws (2 * i + 1))

/-- Euclidean distance between two points of the plane. -/
def euclideanDistance [Sub F] (p c : vec2 F) : F :=
  CMath.sqrt ((p.x - c.x) * (p.x - c.x) + (p.y - c.y) * (p.y - c.y))

/-- The unit draw `float(rand()) / float(RAND_MAX)` for a value `k` of `rand()`. -/
def unitDraw (RAND_MAX k : ℤ) : F :=
  (k : F) / (RAND_MAX : F)

/-- The radial distance of the uniform generator in the words of the
specification, for a draw `r1` of the unit interval: `sqrt(r1) * radius`. -/
def specUniformDistance (radius : ℤ) (r1 : F) : F :=
  CMath.sqrt r1 * (radius : F)

/-- The radial distance of the non-uniform generator in the words of the
specification, for a draw `r1` of the unit interval: `r1 * radius`. -/
def specNonUniformDistance (radius : ℤ) (r1 : F) : F :=
  r1 * (radius : F)

/-! ## Concrete inputs -/

/-- A sequence of values of `rand()` for a C library with
`RAND_MAX = 2147483647`: every value lies in `[0, 2147483647]`. -/
def sampleDraws (i : ℕ) : ℤ :=
  ((i : ℤ) * 1103515245 + 12345) % 2147483648

/-- A sequence of values of `rand()` for a C library with `RAND_MAX = 32768`
(the C standard asks for at least 32767) whose first two unit draws are
`8192 / 32768 = 0.25` and `16384 / 32768 = 0.5`, the draws of the
specification's example. -/
def exampleDraws (i : ℕ) : ℤ :=
  if i = 0 then 8192 else 16384

/-- A state with empty lists (the program before `init`) whose `rand()` is
going to return `draws`. -/
def startState (draws : ℕ → ℤ) : State F :=
  { nonUniformPoints := [], uniformPoints := [], randSeq := draws,
    projection := none, redisplayPosted := false }

/-- A state whose lists already hold points. -/
def usedState (draws : ℕ → ℤ) : State F :=
  { nonUniformPoints := [⟨((1 : ℤ) : F), ((2 : ℤ) : F)⟩],
    uniformPoints := [⟨((3 : ℤ) : F), ((4 : ℤ) : F)⟩, ⟨((5 : ℤ) : F), ((6 : ℤ) : F)⟩],
    randSeq := draws, projection := none, redisplayPosted := true }

end Program

/-! ## Structure of the generated lists (any scalar type) -/

section Structure

variable {F : Type}

theorem pushed_succ (pt : ℤ → ℤ → vec2 F) (draws : ℕ → ℤ) (n : ℕ) :
    pushed pt draws (n + 1) =
      pt (draws 0) (draws 1) :: pushed pt (fun i => draws (i + 2)) n := by
  unfold pushed
  rw [List.range_succ_eq_map, List.map_cons, List.map_map]
  refine congrArg₂ _ rfl (List.map_congr_left fun i _ => ?_)
  simp only [Function.comp, Nat.succ_eq_add_one]
  rfl

theorem length_pushed (pt : ℤ → ℤ → vec2 F) (draws : ℕ → ℤ) (n : ℕ) :
    (pushed pt draws n).length = n := by
  simp [pushed]

theorem mem_pushed {pt : ℤ → ℤ → vec2 F} {draws : ℕ → ℤ} {n : ℕ} {p : vec2 F}
    (h : p ∈ pushed pt draws n) : ∃ i, p = pt (draws (2 * i)) (draws (2 * i + 1)) := by
  simp only [pushed, List.mem_map, List.mem_range] at h
  obtain ⟨i, _, hi⟩ := h
  exact ⟨i, hi.symm⟩

theorem glutPostRedisplay_nonUniformPoints (s : State F) :
    (glutPostRedisplay s).nonUniformPoints = s.nonUniformPoints := rfl

theorem glutPostRedisplay_uniformPoints (s : State F) :
    (glutPostRedisplay s).uniformPoints = s.uniformPoints := rfl

theorem glutPostRedisplay_randSeq (s : State F) :
    (glutPostRedisplay s).randSeq = s.randSeq := rfl

variable [Add F] [Mul F] [Div F] [IntCast F] [CMath F]

theorem addUniformPoint_eq (RAND_MAX : ℤ) (s : State F) :
    addUniformPoint RAND_MAX s =
      { s with
        uniformPoints := s.uniformPoints ++
          [addUniformPoint.randomPoint RAND_MAX (s.randSeq 0) (s.randSeq 1)]
        randSeq := fun i => s.randSeq (i + 2) } := rfl

theorem addNonUniformPoint_eq (RAND_MAX : ℤ) (s : State F) :
    addNonUniformPoint RAND_MAX s =
      { s with
        nonUniformPoints := s.nonUniformPoints ++
          [addNonUniformPoint.randomPoint RAND_MAX (s.randSeq 0) (s.randSeq 1)]
        randSeq := fun i => s.randSeq (i + 2) } := rfl

theorem forLoop_addNonUniformPoint (RAND_MAX : ℤ) (n : ℕ) (s : State F) :
    forLoop (addNonUniformPoint RAND_MAX) n s =
      { s with
        nonUniformPoints := s.nonUniformPoints ++
          pushed (addNonUniformPoint.randomPoint RAND_MAX) s.randSeq n
        randSeq := fun i => s.randSeq (i + 2 * n) } := by
  induction n generalizing s with
  | zero => simp [forLoop, pushed]
  | succ n ih =>
    rw [forLoop, ih, pushed_succ, addNonUniformPoint_eq]
    simp only [List.append_assoc, List.singleton_append]
    rfl

theorem forLoop_addUniformPoint (RAND_MAX : ℤ) (n : ℕ) (s : State F) :
    forLoop (addUniformPoint RAND_MAX) n s =
      { s with
        uniformPoints := s.uniformPoints ++
          pushed (addUniformPoint.randomPoint RAND_MAX) s.randSeq n
        randSeq := fun i => s.randSeq (i + 2 * n) } := by
  induction n generalizing s with
  | zero => simp [forLoop, pushed]
  | succ n ih =>
    rw [forLoop, ih, pushed_succ, addUniformPoint_eq]
    simp only [List.append_assoc, List.singleton_append]
    rfl

theorem generatePoints_eq (RAND_MAX : ℤ) (s : State F) :
    generatePoints RAND_MAX s =
      { s with
        nonUniformPoints := pushed (addNonUniformPoint.randomPoint RAND_MAX) s.randSeq 5000
        uniformPoints :=
          pushed (addUniformPoint.randomPoint RAND_MAX) (fun i => s.randSeq (i + 10000)) 5000
        randSeq := fun i => s.randSeq (i + 20000) } := by
  unfold generatePoints
  simp only [forLoop_addNonUniformPoint, forLoop_addUniformPoint, List.nil_append]
  have h : generatePoints.SAMPLES.toNat = 5000 := by decide
  rw [h]

theorem generatePoints_nonUniformPoints (RAND_MAX : ℤ) (s : State F) :
    (generatePoints RAND_MAX s).nonUniformPoints =
      pushed (addNonUniformPoint.randomPoint RAND_MAX) s.randSeq 5000 := by
  rw [generatePoints_eq]

theorem generatePoints_uniformPoints (RAND_MAX : ℤ) (s : State F) :
    (generatePoints RAND_MAX s).uniformPoints =
      pushed (addUniformPoint.randomPoint RAND_MAX) (fun i => s.randSeq (i + 10000)) 5000 := by
  rw [generatePoints_eq]

theorem generatePoints_randSeq (RAND_MAX : ℤ) (s : State F) :
    (generatePoints RAND_MAX s).randSeq = fun i => s.randSeq (i + 20000) := by
  rw [generatePoints_eq]

theorem keyboard_of_a (RAND_MAX : ℤ) {key : ℕ} (x y : ℤ) (s : State F)
    (h : key = Char.toNat 'a' ∨ key = Char.toNat 'A') :
    keyboard RAND_MAX key x y s = glutPostRedisplay (generatePoints RAND_MAX s) := by
  unfold keyboard
  rcases h with h | h
  · rw [if_pos h]
  · by_cases ha : key = Char.toNat 'a'
    · rw [if_pos ha]
    · rw [if_neg ha, if_pos h]

theorem keyboard_of_other (RAND_MAX : ℤ) {key : ℕ} (x y : ℤ) (s : State F)
    (h : ¬ (key = Char.toNat 'a' ∨ key = Char.toNat 'A')) :
    keyboard RAND_MAX key x y s = glutPostRedisplay s := by
  unfold keyboard
  rw [if_neg fun e => h (Or.inl e), if_neg fun e => h (Or.inr e)]

end Structure

/-! ## Exact real arithmetic -/

section RealArithmetic

theorem sqrt_real (x : ℝ) : CMath.sqrt x = Real.sqrt x := rfl

theorem cos_real (x : ℝ) : CMath.cos x = Real.cos x := rfl

theorem sin_real (x : ℝ) : CMath.sin x = Real.sin x := rfl

theorem M_PI_real : (CMath.M_PI : ℝ) = Real.pi := rfl

theorem TWICE_PI_real : (TWICE_PI : ℝ) = 2 * Real.pi := by
  simp [TWICE_PI, M_PI_real]

theorem unitDraw_real (RAND_MAX k : ℤ) : (unitDraw RAND_MAX k : ℝ) = (k : ℝ) / (RAND_MAX : ℝ) :=
  rfl

theorem unitDraw_nonneg {RAND_MAX k : ℤ} (hR : 0 < RAND_MAX) (hk : 0 ≤ k) :
    (0 : ℝ) ≤ unitDraw RAND_MAX k := by
  rw [unitDraw_real]
  have h1 : (0 : ℝ) ≤ (k : ℝ) := by exact_mod_cast hk
  have h2 : (0 : ℝ) < (RAND_MAX : ℝ) := by exact_mod_cast hR
  exact div_nonneg h1 h2.le

theorem unitDraw_le_one {RAND_MAX k : ℤ} (hR : 0 < RAND_MAX) (hk : k ≤ RAND_MAX) :
    (unitDraw RAND_MAX k : ℝ) ≤ 1 := by
  rw [unitDraw_real]
  have h1 : (k : ℝ) ≤ (RAND_MAX : ℝ) := by exact_mod_cast hk
  have h2 : (0 : ℝ) < (RAND_MAX : ℝ) := by exact_mod_cast hR
  exact (div_le_one h2).2 h1

theorem nonUniform_randX_real (RAND_MAX k1 : ℤ) :
    (addNonUniformPoint.randX RAND_MAX k1 : ℝ) = unitDraw RAND_MAX k1 * 100 := by
  simp [addNonUniformPoint.randX, unitDraw, CIRCLE_RADIUS]

theorem uniform_randX_real (RAND_MAX k1 : ℤ) :
    (addUniformPoint.randX RAND_MAX k1 : ℝ) = Real.sqrt (unitDraw RAND_MAX k1) * 100 := by
  simp [addUniformPoint.randX, unitDraw, CIRCLE_RADIUS, sqrt_real]

theorem nonUniform_rotationAngle_real (RAND_MAX k2 : ℤ) :
    (addNonUniformPoint.rotationAngle RAND_MAX k2 : ℝ) = unitDraw RAND_MAX k2 * (2 * Real.pi) := by
  simp [addNonUniformPoint.rotationAngle, unitDraw, TWICE_PI_real]

theorem uniform_rotationAngle_real (RAND_MAX k2 : ℤ) :
    (addUniformPoint.rotationAngle RAND_MAX k2 : ℝ) = unitDraw RAND_MAX k2 * (2 * Real.pi) := by
  simp [addUniformPoint.rotationAngle, unitDraw, TWICE_PI_real]

/-- Distance of the point at polar coordinates `(d, θ)` around `c` from `c`. -/
theorem euclideanDistance_polar (d θ cx cy : ℝ) :
    euclideanDistance (⟨d * Real.cos θ + cx, d * Real.sin θ + cy⟩ : vec2 ℝ) ⟨cx, cy⟩ = |d| := by
  unfold euclideanDistance
  rw [sqrt_real]
  have h : (d * Real.cos θ + cx - cx) * (d * Real.cos θ + cx - cx)
      + (d * Real.sin θ + cy - cy) * (d * Real.sin θ + cy - cy) = d ^ 2 := by
    have := Real.sin_sq_add_cos_sq θ
    linear_combination d ^ 2 * this
  simp only [h]
  exact Real.sqrt_sq_eq_abs d

theorem nonUniform_randX_nonneg {RAND_MAX k1 : ℤ} (hR : 0 < RAND_MAX) (hk : 0 ≤ k1) :
    (0 : ℝ) ≤ addNonUniformPoint.randX RAND_MAX k1 := by
  rw [nonUniform_randX_real]
  have := unitDraw_nonneg hR hk
  positivity

theorem nonUniform_randX_le {RAND_MAX k1 : ℤ} (hR : 0 < RAND_MAX) (hk : k1 ≤ RAND_MAX) :
    (addNonUniformPoint.randX RAND_MAX k1 : ℝ) ≤ 100 := by
  rw [nonUniform_randX_real]
  have := unitDraw_le_one hR hk
  linarith

theorem uniform_randX_nonneg (RAND_MAX k1 : ℤ) :
    (0 : ℝ) ≤ addUniformPoint.randX RAND_MAX k1 := by
  rw [uniform_randX_real]
  have := Real.sqrt_nonneg (unitDraw RAND_MAX k1)
  positivity

theorem uniform_randX_le {RAND_MAX k1 : ℤ} (hR : 0 < RAND_MAX) (hk : k1 ≤ RAND_MAX) :
    (addUniformPoint.randX RAND_MAX k1 : ℝ) ≤ 100 := by
  rw [uniform_randX_real]
  have h1 : Real.sqrt (unitDraw RAND_MAX k1) ≤ 1 :=
    Real.sqrt_le_one.2 (unitDraw_le_one hR hk)
  linarith

theorem nonUniform_distance (RAND_MAX k1 k2 : ℤ) :
    euclideanDistance (addNonUniformPoint.randomPoint RAND_MAX k1 k2 : vec2 ℝ)
      NON_UNIFORM_CIRCLE_CENTER = |addNonUniformPoint.randX RAND_MAX k1| := by
  unfold addNonUniformPoint.randomPoint NON_UNIFORM_CIRCLE_CENTER
  simp only [cos_real, sin_real]
  exact euclideanDistance_polar _ _ _ _

theorem uniform_distance (RAND_MAX k1 k2 : ℤ) :
    euclideanDistance (addUniformPoint.randomPoint RAND_MAX k1 k2 : vec2 ℝ)
      UNIFORM_CIRCLE_CENTER = |addUniformPoint.randX RAND_MAX k1| := by
  unfold addUniformPoint.randomPoint UNIFORM_CIRCLE_CENTER
  simp only [cos_real, sin_real]
  exact euclideanDistance_polar _ _ _ _

theorem specUniformDistance_real (r : ℝ) :
    specUniformDistance CIRCLE_RADIUS r = Real.sqrt r * 100 := by
  simp [specUniformDistance, CIRCLE_RADIUS, sqrt_real]

theorem specNonUniformDistance_real (r : ℝ) :
    specNonUniformDistance CIRCLE_RADIUS r = r * 100 := by
  simp [specNonUniformDistance, CIRCLE_RADIUS]

theorem specUniformDistance_le_iff (r : ℝ) {rho : ℝ} (hrho : 0 ≤ rho) :
    specUniformDistance CIRCLE_RADIUS r ≤ rho ↔ r ≤ (rho / 100) ^ 2 := by
  rw [specUniformDistance_real, ← le_div_iff₀ (by norm_num : (0 : ℝ) < 100)]
  exact Real.sqrt_le_left (div_nonneg hrho (by norm_num))

theorem le_specUniformDistance_iff {r rho : ℝ} (hr : 0 ≤ r) (hrho : 0 ≤ rho) :
    rho ≤ specUniformDistance CIRCLE_RADIUS r ↔ (rho / 100) ^ 2 ≤ r := by
  rw [specUniformDistance_real, ← div_le_iff₀ (by norm_num : (0 : ℝ) < 100)]
  exact Real.le_sqrt (div_nonneg hrho (by norm_num)) hr

theorem specNonUniformDistance_le_iff (r rho : ℝ) :
    specNonUniformDistance CIRCLE_RADIUS r ≤ rho ↔ r ≤ rho / 100 := by
  rw [specNonUniformDistance_real, ← le_div_iff₀ (by norm_num : (0 : ℝ) < 100)]

/-- The uniform sampler's point lies within `rho` of its centre exactly when
the first unit draw is at most `(rho / 100) ^ 2`. -/
theorem uniform_within_iff (RAND_MAX k1 k2 : ℤ) {rho : ℝ} (hrho : 0 ≤ rho) :
    euclideanDistance (addUniformPoint.randomPoint RAND_MAX k1 k2 : vec2 ℝ)
        UNIFORM_CIRCLE_CENTER ≤ rho ↔
      (unitDraw RAND_MAX k1 : ℝ) ≤ (rho / 100) ^ 2 := by
  rw [uniform_distance, abs_of_nonneg (uniform_randX_nonneg _ _), uniform_randX_real,
    ← specUniformDistance_real]
  exact specUniformDistance_le_iff _ hrho

/-- The non-uniform sampler's point lies within `rho` of its centre exactly
when the first unit draw is at most `rho / 100`. -/
theorem nonUniform_within_iff {RAND_MAX k1 : ℤ} (k2 : ℤ) (rho : ℝ) (hR : 0 < RAND_MAX)
    (hk : 0 ≤ k1) :
    euclideanDistance (addNonUniformPoint.randomPoint RAND_MAX k1 k2 : vec2 ℝ)
        NON_UNIFORM_CIRCLE_CENTER ≤ rho ↔
      (unitDraw RAND_MAX k1 : ℝ) ≤ rho / 100 := by
  rw [nonUniform_distance, abs_of_nonneg (nonUniform_randX_nonneg hR hk), nonUniform_randX_real,
    ← specNonUniformDistance_real]
  exact specNonUniformDistance_le_iff _ _

open MeasureTheory in
/-- Lebesgue measure of the unit draws that the uniform radial formula maps
into the annulus `[rho1, rho2]`. -/
theorem volume_uniform_annulus {rho1 rho2 : ℝ} (h0 : 0 ≤ rho1) (h12 : rho1 ≤ rho2)
    (h2 : rho2 ≤ 100) :
    volume {r1 : ℝ | r1 ∈ Set.Icc (0 : ℝ) 1 ∧ rho1 ≤ specUniformDistance CIRCLE_RADIUS r1 ∧
        specUniformDistance CIRCLE_RADIUS r1 ≤ rho2} =
      ENNReal.ofReal ((rho2 ^ 2 - rho1 ^ 2) / 100 ^ 2) := by
  have hset : {r1 : ℝ | r1 ∈ Set.Icc (0 : ℝ) 1 ∧ rho1 ≤ specUniformDistance CIRCLE_RADIUS r1 ∧
        specUniformDistance CIRCLE_RADIUS r1 ≤ rho2} =
      Set.Icc ((rho1 / 100) ^ 2) ((rho2 / 100) ^ 2) := by
    ext r
    simp only [Set.mem_setOf_eq, Set.mem_Icc]
    constructor
    · rintro ⟨⟨hr0, _⟩, ha, hb⟩
      exact ⟨(le_specUniformDistance_iff hr0 h0).1 ha,
        (specUniformDistance_le_iff r (h0.trans h12)).1 hb⟩
    · rintro ⟨ha, hb⟩
      have hr0 : 0 ≤ r := le_trans (sq_nonneg _) ha
      have hq : (rho2 / 100) ^ 2 ≤ 1 := by
        have h3 : 0 ≤ rho2 / 100 := div_nonneg (h0.trans h12) (by norm_num)
        have h4 : rho2 / 100 ≤ 1 := by
          rw [div_le_one (by norm_num : (0 : ℝ) < 100)]
          exact h2
        nlinarith
      exact ⟨⟨hr0, hb.trans hq⟩, (le_specUniformDistance_iff hr0 h0).2 ha,
        (specUniformDistance_le_iff r (h0.trans h12)).2 hb⟩
  rw [hset, Real.volume_Icc]
  congr 1
  ring

open MeasureTheory in
/-- Lebesgue measure of the unit draws that the uniform radial formula maps
into the disk of radius `rho`. -/
theorem volume_uniform_disk {rho : ℝ} (h0 : 0 ≤ rho) (h1 : rho ≤ 100) :
    volume {r1 : ℝ | r1 ∈ Set.Icc (0 : ℝ) 1 ∧ specUniformDistance CIRCLE_RADIUS r1 ≤ rho} =
      ENNReal.ofReal (rho ^ 2 / 100 ^ 2) := by
  have hset : {r1 : ℝ | r1 ∈ Set.Icc (0 : ℝ) 1 ∧ specUniformDistance CIRCLE_RADIUS r1 ≤ rho} =
      {r1 : ℝ | r1 ∈ Set.Icc (0 : ℝ) 1 ∧ 0 ≤ specUniformDistance CIRCLE_RADIUS r1 ∧
        specUniformDistance CIRCLE_RADIUS r1 ≤ rho} := by
    ext r
    simp only [Set.mem_setOf_eq, Set.mem_Icc]
    have : 0 ≤ specUniformDistance CIRCLE_RADIUS r := by
      rw [specUniformDistance_real]
      have := Real.sqrt_nonneg r
      positivity
    tauto
  rw [hset, volume_uniform_annulus le_rfl h0 h1]
  congr 1
  ring

open MeasureTheory in
/-- Lebesgue measure of the unit draws that the non-uniform radial formula
maps into the disk of radius `rho`. -/
theorem volume_nonUniform_disk {rho : ℝ} (h0 : 0 ≤ rho) (h1 : rho ≤ 100) :
    volume {r1 : ℝ | r1 ∈ Set.Icc (0 : ℝ) 1 ∧ specNonUniformDistance CIRCLE_RADIUS r1 ≤ rho} =
      ENNReal.ofReal (rho / 100) := by
  have hset : {r1 : ℝ | r1 ∈ Set.Icc (0 : ℝ) 1 ∧
        specNonUniformDistance CIRCLE_RADIUS r1 ≤ rho} = Set.Icc 0 (rho / 100) := by
    ext r
    simp only [Set.mem_setOf_eq, Set.mem_Icc, specNonUniformDistance_le_iff]
    constructor
    · rintro ⟨⟨hr0, _⟩, hb⟩
      exact ⟨hr0, hb⟩
    · rintro ⟨ha, hb⟩
      have h4 : rho / 100 ≤ 1 := by
        rw [div_le_one (by norm_num : (0 : ℝ) < 100)]
        exact h1
      exact ⟨⟨ha, hb.trans h4⟩, hb⟩
  rw [hset, Real.volume_Icc]
  congr 1
  ring

theorem rotationAngle_nonneg {RAND_MAX k : ℤ} (hR : 0 < RAND_MAX) (hk : 0 ≤ k) :
    (0 : ℝ) ≤ addUniformPoint.rotationAngle RAND_MAX k := by
  rw [uniform_rotationAngle_real]
  have := unitDraw_nonneg hR hk
  have := Real.pi_pos
  positivity

theorem rotationAngle_le {RAND_MAX k : ℤ} (hR : 0 < RAND_MAX) (hk : k ≤ RAND_MAX) :
    (addUniformPoint.rotationAngle RAND_MAX k : ℝ) ≤ 2 * Real.pi := by
  rw [uniform_rotationAngle_real]
  have := unitDraw_le_one hR hk
  have := Real.pi_pos
  nlinarith

theorem rotationAngle_lt_iff {RAND_MAX : ℤ} (k : ℤ) (hR : 0 < RAND_MAX) :
    (addUniformPoint.rotationAngle RAND_MAX k : ℝ) < 2 * Real.pi ↔ k < RAND_MAX := by
  rw [uniform_rotationAngle_real, unitDraw_real]
  have h2 : (0 : ℝ) < (RAND_MAX : ℝ) := by exact_mod_cast hR
  have hpi : (0 : ℝ) < 2 * Real.pi := by have := Real.pi_pos; linarith
  rw [mul_lt_iff_lt_one_left hpi, div_lt_one h2]
  exact Int.cast_lt

/-- A product of a radial distance in `[0, 100]` and a cosine or sine lies in
`[-100, 100]`. -/
theorem radial_mul_bounds {d c : ℝ} (hd0 : 0 ≤ d) (hd : d ≤ 100) (hc0 : -1 ≤ c) (hc : c ≤ 1) :
    -100 ≤ d * c ∧ d * c ≤ 100 := by
  constructor <;> nlinarith

/-- A point whose abscissa is at least 250 away from that of `c` is more than
100 away from `c`. -/
theorem euclideanDistance_gt_of_abscissa {p c : vec2 ℝ}
    (h : p.x - c.x ≤ -250 ∨ 250 ≤ p.x - c.x) : 100 < euclideanDistance p c := by
  unfold euclideanDistance
  rw [sqrt_real, Real.lt_sqrt (by norm_num)]
  have hy : 0 ≤ (p.y - c.y) * (p.y - c.y) := mul_self_nonneg _
  rcases h with h | h <;> nlinarith

theorem nonUniform_point_box {RAND_MAX k1 : ℤ} (k2 : ℤ) (hR : 0 < RAND_MAX)
    (hk : 0 ≤ k1 ∧ k1 ≤ RAND_MAX) :
    (50 : ℝ) ≤ (addNonUniformPoint.randomPoint RAND_MAX k1 k2 : vec2 ℝ).x ∧
    (addNonUniformPoint.randomPoint RAND_MAX k1 k2 : vec2 ℝ).x ≤ 250 ∧
    (50 : ℝ) ≤ (addNonUniformPoint.randomPoint RAND_MAX k1 k2 : vec2 ℝ).y ∧
    (addNonUniformPoint.randomPoint RAND_MAX k1 k2 : vec2 ℝ).y ≤ 250 := by
  have hx := radial_mul_bounds (nonUniform_randX_nonneg hR hk.1) (nonUniform_randX_le hR hk.2)
    (Real.neg_one_le_cos (addNonUniformPoint.rotationAngle RAND_MAX k2))
    (Real.cos_le_one (addNonUniformPoint.rotationAngle RAND_MAX k2))
  have hy := radial_mul_bounds (nonUniform_randX_nonneg hR hk.1) (nonUniform_randX_le hR hk.2)
    (Real.neg_one_le_sin (addNonUniformPoint.rotationAngle RAND_MAX k2))
    (Real.sin_le_one (addNonUniformPoint.rotationAngle RAND_MAX k2))
  simp only [addNonUniformPoint.randomPoint, NON_UNIFORM_CIRCLE_CENTER, cos_real, sin_real]
  norm_num
  refine ⟨?_, ?_, ?_, ?_⟩ <;> linarith [hx.1, hx.2, hy.1, hy.2]

theorem uniform_point_box {RAND_MAX k1 : ℤ} (k2 : ℤ) (hR : 0 < RAND_MAX)
    (hk : 0 ≤ k1 ∧ k1 ≤ RAND_MAX) :
    (400 : ℝ) ≤ (addUniformPoint.randomPoint RAND_MAX k1 k2 : vec2 ℝ).x ∧
    (addUniformPoint.randomPoint RAND_MAX k1 k2 : vec2 ℝ).x ≤ 600 ∧
    (50 : ℝ) ≤ (addUniformPoint.randomPoint RAND_MAX k1 k2 : vec2 ℝ).y ∧
    (addUniformPoint.randomPoint RAND_MAX k1 k2 : vec2 ℝ).y ≤ 250 := by
  have hx := radial_mul_bounds (uniform_randX_nonneg RAND_MAX k1) (uniform_randX_le hR hk.2)
    (Real.neg_one_le_cos (addUniformPoint.rotationAngle RAND_MAX k2))
    (Real.cos_le_one (addUniformPoint.rotationAngle RAND_MAX k2))
  have hy := radial_mul_bounds (uniform_randX_nonneg RAND_MAX k1) (uniform_randX_le hR hk.2)
    (Real.neg_one_le_sin (addUniformPoint.rotationAngle RAND_MAX k2))
    (Real.sin_le_one (addUniformPoint.rotationAngle RAND_MAX k2))
  simp only [addUniformPoint.randomPoint, UNIFORM_CIRCLE_CENTER, cos_real, sin_real]
  norm_num
  refine ⟨?_, ?_, ?_, ?_⟩ <;> linarith [hx.1, hx.2, hy.1, hy.2]

theorem sqrt_quarter : Real.sqrt 0.25 = 0.5 := by
  rw [show (0.25 : ℝ) = 0.5 ^ 2 by norm_num]
  exact Real.sqrt_sq (by norm_num)

theorem sampleDraws_range (i : ℕ) : 0 ≤ sampleDraws i ∧ sampleDraws i ≤ 2147483647 := by
  unfold sampleDraws
  constructor
  · exact Int.emod_nonneg _ (by norm_num)
  · have := Int.emod_lt_of_pos ((i : ℤ) * 1103515245 + 12345)
      (show (0 : ℤ) < 2147483648 by norm_num)
    omega

end RealArithmetic

/-! ## The claims -/

section Claims

/-- C1: with exact real arithmetic and every value of `rand()` in
`[0, RAND_MAX]`, after `generatePoints` (from any prior state) every point of
`nonUniformPoints` has Euclidean distance between 0 and 100 from
`NON_UNIFORM_CIRCLE_CENTER`, and every point of `uniformPoints` has Euclidean
distance between 0 and 100 from `UNIFORM_CIRCLE_CENTER`. -/
theorem generatePoints_within_radius (RAND_MAX : ℤ) (s : State ℝ)
    (hR : 0 < RAND_MAX) (hdraws : ∀ i, 0 ≤ s.randSeq i ∧ s.randSeq i ≤ RAND_MAX) :
    (∀ p ∈ (generatePoints RAND_MAX s).nonUniformPoints,
        0 ≤ euclideanDistance p NON_UNIFORM_CIRCLE_CENTER ∧
        euclideanDistance p NON_UNIFORM_CIRCLE_CENTER ≤ 100) ∧
    (∀ p ∈ (generatePoints RAND_MAX s).uniformPoints,
        0 ≤ euclideanDistance p UNIFORM_CIRCLE_CENTER ∧
        euclideanDistance p UNIFORM_CIRCLE_CENTER ≤ 100) := by
  rw [generatePoints_nonUniformPoints, generatePoints_uniformPoints]
  refine ⟨fun p hp => ?_, fun p hp => ?_⟩
  · obtain ⟨i, rfl⟩ := mem_pushed hp
    rw [nonUniform_distance, abs_of_nonneg (nonUniform_randX_nonneg hR (hdraws _).1)]
    exact ⟨nonUniform_randX_nonneg hR (hdraws _).1, nonUniform_randX_le hR (hdraws _).2⟩
  · obtain ⟨i, rfl⟩ := mem_pushed hp
    rw [uniform_distance, abs_of_nonneg (uniform_randX_nonneg _ _)]
    exact ⟨uniform_randX_nonneg _ _, uniform_randX_le hR (hdraws _).2⟩

/-- Witness of C1: `RAND_MAX = 2147483647`, the draws `sampleDraws`, and a
prior state whose lists are not empty. -/
theorem generatePoints_within_radius_witness :
    ((0 : ℤ) < 2147483647 ∧
      ∀ i, 0 ≤ (usedState sampleDraws : State ℝ).randSeq i ∧
        (usedState sampleDraws : State ℝ).randSeq i ≤ 2147483647) ∧
    (∀ p ∈ (generatePoints 2147483647 (usedState sampleDraws : State ℝ)).nonUniformPoints,
        0 ≤ euclideanDistance p NON_UNIFORM_CIRCLE_CENTER ∧
        euclideanDistance p NON_UNIFORM_CIRCLE_CENTER ≤ 100) ∧
    (∀ p ∈ (generatePoints 2147483647 (usedState sampleDraws : State ℝ)).uniformPoints,
        0 ≤ euclideanDistance p UNIFORM_CIRCLE_CENTER ∧
        euclideanDistance p UNIFORM_CIRCLE_CENTER ≤ 100) :=
  ⟨⟨by norm_num, sampleDraws_range⟩,
    generatePoints_within_radius 2147483647 (usedState sampleDraws) (by norm_num)
      sampleDraws_range⟩

/-- C2: for every scalar type, every prior content of the two lists and every
sequence of values of `rand()`, after one call of `generatePoints` each of
`nonUniformPoints` and `uniformPoints` has exactly 5000 elements. -/
theorem generatePoints_lengths {F : Type} [Add F] [Mul F] [Div F] [IntCast F] [CMath F]
    (RAND_MAX : ℤ) (s : State F) :
    (generatePoints RAND_MAX s).nonUniformPoints.length = 5000 ∧
    (generatePoints RAND_MAX s).uniformPoints.length = 5000 := by
  rw [generatePoints_nonUniformPoints, generatePoints_uniformPoints]
  exact ⟨length_pushed _ _ _, length_pushed _ _ _⟩

/-- C3: `generatePoints` discards the old points.  Two prior states `s` and
`s'` with the same sequence of values of `rand()` yield the same
`nonUniformPoints` and the same `uniformPoints`; and after two calls in
succession each list has exactly 5000 elements. -/
theorem generatePoints_discards_old {F : Type} [Add F] [Mul F] [Div F] [IntCast F] [CMath F]
    (RAND_MAX : ℤ) (s s' : State F) (hdraws : s.randSeq = s'.randSeq) :
    (generatePoints RAND_MAX s).nonUniformPoints =
      (generatePoints RAND_MAX s').nonUniformPoints ∧
    (generatePoints RAND_MAX s).uniformPoints =
      (generatePoints RAND_MAX s').uniformPoints ∧
    (generatePoints RAND_MAX (generatePoints RAND_MAX s)).nonUniformPoints.length = 5000 ∧
    (generatePoints RAND_MAX (generatePoints RAND_MAX s)).uniformPoints.length = 5000 := by
  refine ⟨?_, ?_, ?_, ?_⟩
  · rw [generatePoints_nonUniformPoints, generatePoints_nonUniformPoints, hdraws]
  · rw [generatePoints_uniformPoints, generatePoints_uniformPoints, hdraws]
  · rw [generatePoints_nonUniformPoints]
    exact length_pushed _ _ _
  · rw [generatePoints_uniformPoints]
    exact length_pushed _ _ _

/-- Witness of C3: an empty prior state and a prior state holding three
points, both about to draw `sampleDraws`. -/
theorem generatePoints_discards_old_witness :
    (startState sampleDraws : State ℝ).randSeq = (usedState sampleDraws : State ℝ).randSeq ∧
    (generatePoints 2147483647 (startState sampleDraws : State ℝ)).nonUniformPoints =
      (generatePoints 2147483647 (usedState sampleDraws : State ℝ)).nonUniformPoints ∧
    (generatePoints 2147483647 (startState sampleDraws : State ℝ)).uniformPoints =
      (generatePoints 2147483647 (usedState sampleDraws : State ℝ)).uniformPoints ∧
    (generatePoints 2147483647
      (generatePoints 2147483647 (startState sampleDraws : State ℝ))).nonUniformPoints.length
        = 5000 ∧
    (generatePoints 2147483647
      (generatePoints 2147483647 (startState sampleDraws : State ℝ))).uniformPoints.length
        = 5000 :=
  ⟨rfl, generatePoints_discards_old 2147483647 (startState sampleDraws)
    (usedState sampleDraws) rfl⟩

/-- C4: with exact real arithmetic and unit draws `r1 = k1 / RAND_MAX`,
`r2 = k2 / RAND_MAX` in `[0, 1]`, `addNonUniformPoint` appends to the end of
`nonUniformPoints` exactly the point
`center + (r1 * 100 * cos (2 * pi * r2), r1 * 100 * sin (2 * pi * r2))` with
`center = (150, 150)`; its distance from the centre is exactly `r1 * 100`
(as is the distance of that formula's point for every real `r1 ≥ 0` and `r2`);
`uniformPoints` is unchanged.  For the draws of the specification's example,
`r1 = 0.25` and `r2 = 0.5`, the distance is 25, the angle is `pi` and the
point is `center + (-25, 0)`. -/
theorem addNonUniformPoint_appends (RAND_MAX : ℤ) (s : State ℝ) (hR : 0 < RAND_MAX)
    (h1 : 0 ≤ s.randSeq 0 ∧ s.randSeq 0 ≤ RAND_MAX)
    (h2 : 0 ≤ s.randSeq 1 ∧ s.randSeq 1 ≤ RAND_MAX) :
    (NON_UNIFORM_CIRCLE_CENTER : vec2 ℝ) = ⟨150, 150⟩ ∧
    (addNonUniformPoint RAND_MAX s).nonUniformPoints =
      s.nonUniformPoints ++
        [⟨150 + unitDraw RAND_MAX (s.randSeq 0) * 100
            * Real.cos (2 * Real.pi * unitDraw RAND_MAX (s.randSeq 1)),
          150 + unitDraw RAND_MAX (s.randSeq 0) * 100
            * Real.sin (2 * Real.pi * unitDraw RAND_MAX (s.randSeq 1))⟩] ∧
    euclideanDistance
        (⟨150 + unitDraw RAND_MAX (s.randSeq 0) * 100
            * Real.cos (2 * Real.pi * unitDraw RAND_MAX (s.randSeq 1)),
          150 + unitDraw RAND_MAX (s.randSeq 0) * 100
            * Real.sin (2 * Real.pi * unitDraw RAND_MAX (s.randSeq 1))⟩ : vec2 ℝ)
        NON_UNIFORM_CIRCLE_CENTER
      = unitDraw RAND_MAX (s.randSeq 0) * 100 ∧
    (∀ r1 r2 : ℝ, 0 ≤ r1 →
      euclideanDistance
          (⟨150 + r1 * 100 * Real.cos (2 * Real.pi * r2),
            150 + r1 * 100 * Real.sin (2 * Real.pi * r2)⟩ : vec2 ℝ)
          NON_UNIFORM_CIRCLE_CENTER
        = r1 * 100) ∧
    (addNonUniformPoint RAND_MAX s).uniformPoints = s.uniformPoints ∧
    ((unitDraw RAND_MAX (s.randSeq 0) : ℝ) = 0.25 →
      (unitDraw RAND_MAX (s.randSeq 1) : ℝ) = 0.5 →
      (addNonUniformPoint.randX RAND_MAX (s.randSeq 0) : ℝ) = 25 ∧
      (addNonUniformPoint.rotationAngle RAND_MAX (s.randSeq 1) : ℝ) = Real.pi ∧
      (addNonUniformPoint RAND_MAX s).nonUniformPoints =
        s.nonUniformPoints ++ [⟨150 + (-25), 150 + 0⟩]) := by
  have hc : (NON_UNIFORM_CIRCLE_CENTER : vec2 ℝ) = ⟨150, 150⟩ := by
    simp [NON_UNIFORM_CIRCLE_CENTER]
  have hp : (addNonUniformPoint.randomPoint RAND_MAX (s.randSeq 0) (s.randSeq 1) : vec2 ℝ) =
      ⟨150 + unitDraw RAND_MAX (s.randSeq 0) * 100
          * Real.cos (2 * Real.pi * unitDraw RAND_MAX (s.randSeq 1)),
        150 + unitDraw RAND_MAX (s.randSeq 0) * 100
          * Real.sin (2 * Real.pi * unitDraw RAND_MAX (s.randSeq 1))⟩ := by
    unfold addNonUniformPoint.randomPoint
    rw [nonUniform_randX_real, nonUniform_rotationAngle_real, cos_real, sin_real, hc,
      mul_comm (unitDraw RAND_MAX (s.randSeq 1) : ℝ) (2 * Real.pi)]
    simp only [vec2.mk.injEq]
    constructor <;> ring
  have hl : (addNonUniformPoint RAND_MAX s).nonUniformPoints = s.nonUniformPoints ++
      [addNonUniformPoint.randomPoint RAND_MAX (s.randSeq 0) (s.randSeq 1)] := by
    rw [addNonUniformPoint_eq]
  have hd := nonUniform_distance RAND_MAX (s.randSeq 0) (s.randSeq 1)
  rw [abs_of_nonneg (nonUniform_randX_nonneg hR h1.1), nonUniform_randX_real, hp] at hd
  have hg : ∀ r1 r2 : ℝ, 0 ≤ r1 →
      euclideanDistance
          (⟨150 + r1 * 100 * Real.cos (2 * Real.pi * r2),
            150 + r1 * 100 * Real.sin (2 * Real.pi * r2)⟩ : vec2 ℝ)
          NON_UNIFORM_CIRCLE_CENTER
        = r1 * 100 := by
    intro r1 r2 hr
    have hnn : (0 : ℝ) ≤ r1 * 100 := by positivity
    rw [hc, add_comm (150 : ℝ), add_comm (150 : ℝ), euclideanDistance_polar, abs_of_nonneg hnn]
  refine ⟨hc, by rw [hl, hp], hd, hg, by rw [addNonUniformPoint_eq], fun e1 e2 => ?_⟩
  refine ⟨?_, ?_, ?_⟩
  · rw [nonUniform_randX_real, e1]; norm_num
  · rw [nonUniform_rotationAngle_real, e2]; ring
  · rw [hl, hp, e1, e2]
    have h : 2 * Real.pi * 0.5 = Real.pi := by ring
    rw [h, Real.cos_pi, Real.sin_pi]
    norm_num

/-- Witness of C4: the specification's example.  With `RAND_MAX = 32768` and
`rand()` returning 8192 and then 16384 (`r1 = 0.25`, `r2 = 0.5`), the radial
distance is 25, the angle is `pi`, and `addNonUniformPoint` turns the empty
list into the single point `(150 - 25, 150 + 0)`. -/
theorem addNonUniformPoint_appends_witness :
    ((0 : ℤ) < 32768 ∧
      (0 ≤ (startState exampleDraws : State ℝ).randSeq 0 ∧
        (startState exampleDraws : State ℝ).randSeq 0 ≤ 32768) ∧
      (0 ≤ (startState exampleDraws : State ℝ).randSeq 1 ∧
        (startState exampleDraws : State ℝ).randSeq 1 ≤ 32768)) ∧
    (addNonUniformPoint.randX 32768 8192 : ℝ) = 25 ∧
    (addNonUniformPoint.rotationAngle 32768 16384 : ℝ) = Real.pi ∧
    (addNonUniformPoint 32768 (startState exampleDraws : State ℝ)).nonUniformPoints =
      [⟨150 + (-25), 150 + 0⟩] := by
  have hdraws : (0 : ℤ) < 32768 ∧
      (0 ≤ (startState exampleDraws : State ℝ).randSeq 0 ∧
        (startState exampleDraws : State ℝ).randSeq 0 ≤ 32768) ∧
      (0 ≤ (startState exampleDraws : State ℝ).randSeq 1 ∧
        (startState exampleDraws : State ℝ).randSeq 1 ≤ 32768) := by
    simp [startState, exampleDraws]
  have h := (addNonUniformPoint_appends 32768 (startState exampleDraws)
    hdraws.1 hdraws.2.1 hdraws.2.2).2.2.2.2.2
    (by simp [startState, exampleDraws, unitDraw_real]; norm_num)
    (by simp [startState, exampleDraws, unitDraw_real]; norm_num)
  exact ⟨hdraws, h.1, h.2.1, h.2.2⟩

/-- C5: with exact real arithmetic and unit draws `r1 = k1 / RAND_MAX`,
`r2 = k2 / RAND_MAX` in `[0, 1]`, `addUniformPoint` appends to the end of
`uniformPoints` exactly the point
`center + (sqrt r1 * 100 * cos (2 * pi * r2), sqrt r1 * 100 * sin (2 * pi * r2))` with
`center = (500, 150)`; its distance from the centre is exactly `sqrt r1 * 100`
(as is the distance of that formula's point for every real `r1 ≥ 0` and `r2`);
`nonUniformPoints` is unchanged.  For the draws of the specification's example,
`r1 = 0.25` and `r2 = 0.5`, the distance is 50, the angle is `pi` and the
point is `center + (-50, 0)`. -/
theorem addUniformPoint_appends (RAND_MAX : ℤ) (s : State ℝ) (hR : 0 < RAND_MAX)
    (h1 : 0 ≤ s.randSeq 0 ∧ s.randSeq 0 ≤ RAND_MAX)
    (h2 : 0 ≤ s.randSeq 1 ∧ s.randSeq 1 ≤ RAND_MAX) :
    (UNIFORM_CIRCLE_CENTER : vec2 ℝ) = ⟨500, 150⟩ ∧
    (addUniformPoint RAND_MAX s).uniformPoints =
      s.uniformPoints ++
        [⟨500 + Real.sqrt (unitDraw RAND_MAX (s.randSeq 0)) * 100
            * Real.cos (2 * Real.pi * unitDraw RAND_MAX (s.randSeq 1)),
          150 + Real.sqrt (unitDraw RAND_MAX (s.randSeq 0)) * 100
            * Real.sin (2 * Real.pi * unitDraw RAND_MAX (s.randSeq 1))⟩] ∧
    euclideanDistance
        (⟨500 + Real.sqrt (unitDraw RAND_MAX (s.randSeq 0)) * 100
            * Real.cos (2 * Real.pi * unitDraw RAND_MAX (s.randSeq 1)),
          150 + Real.sqrt (unitDraw RAND_MAX (s.randSeq 0)) * 100
            * Real.sin (2 * Real.pi * unitDraw RAND_MAX (s.randSeq 1))⟩ : vec2 ℝ)
        UNIFORM_CIRCLE_CENTER
      = Real.sqrt (unitDraw RAND_MAX (s.randSeq 0)) * 100 ∧
    (∀ r1 r2 : ℝ, 0 ≤ r1 →
      euclideanDistance
          (⟨500 + Real.sqrt r1 * 100 * Real.cos (2 * Real.pi * r2),
            150 + Real.sqrt r1 * 100 * Real.sin (2 * Real.pi * r2)⟩ : vec2 ℝ)
          UNIFORM_CIRCLE_CENTER
        = Real.sqrt r1 * 100) ∧
    (addUniformPoint RAND_MAX s).nonUniformPoints = s.nonUniformPoints ∧
    ((unitDraw RAND_MAX (s.randSeq 0) : ℝ) = 0.25 →
      (unitDraw RAND_MAX (s.randSeq 1) : ℝ) = 0.5 →
      (addUniformPoint.randX RAND_MAX (s.randSeq 0) : ℝ) = 50 ∧
      (addUniformPoint.rotationAngle RAND_MAX (s.randSeq 1) : ℝ) = Real.pi ∧
      (addUniformPoint RAND_MAX s).uniformPoints =
        s.uniformPoints ++ [⟨500 + (-50), 150 + 0⟩]) := by
  have hc : (UNIFORM_CIRCLE_CENTER : vec2 ℝ) = ⟨500, 150⟩ := by
    simp [UNIFORM_CIRCLE_CENTER]
  have hp : (addUniformPoint.randomPoint RAND_MAX (s.randSeq 0) (s.randSeq 1) : vec2 ℝ) =
      ⟨500 + Real.sqrt (unitDraw RAND_MAX (s.randSeq 0)) * 100
          * Real.cos (2 * Real.pi * unitDraw RAND_MAX (s.randSeq 1)),
        150 + Real.sqrt (unitDraw RAND_MAX (s.randSeq 0)) * 100
          * Real.sin (2 * Real.pi * unitDraw RAND_MAX (s.randSeq 1))⟩ := by
    unfold addUniformPoint.randomPoint
    rw [uniform_randX_real, uniform_rotationAngle_real, cos_real, sin_real, hc,
      mul_comm (unitDraw RAND_MAX (s.randSeq 1) : ℝ) (2 * Real.pi)]
    simp only [vec2.mk.injEq]
    constructor <;> ring
  have hl : (addUniformPoint RAND_MAX s).uniformPoints = s.uniformPoints ++
      [addUniformPoint.randomPoint RAND_MAX (s.randSeq 0) (s.randSeq 1)] := by
    rw [addUniformPoint_eq]
  have hd := uniform_distance RAND_MAX (s.randSeq 0) (s.randSeq 1)
  rw [abs_of_nonneg (uniform_randX_nonneg _ _), uniform_randX_real, hp] at hd
  have hg : ∀ r1 r2 : ℝ, 0 ≤ r1 →
      euclideanDistance
          (⟨500 + Real.sqrt r1 * 100 * Real.cos (2 * Real.pi * r2),
            150 + Real.sqrt r1 * 100 * Real.sin (2 * Real.pi * r2)⟩ : vec2 ℝ)
          UNIFORM_CIRCLE_CENTER
        = Real.sqrt r1 * 100 := by
    intro r1 r2 hr
    have hnn : (0 : ℝ) ≤ Real.sqrt r1 * 100 := by positivity
    rw [hc, add_comm (500 : ℝ), add_comm (150 : ℝ), euclideanDistance_polar, abs_of_nonneg hnn]
  refine ⟨hc, by rw [hl, hp], hd, hg, by rw [addUniformPoint_eq], fun e1 e2 => ?_⟩
  refine ⟨?_, ?_, ?_⟩
  · rw [uniform_randX_real, e1, sqrt_quarter]; norm_num
  · rw [uniform_rotationAngle_real, e2]; ring
  · rw [hl, hp, e1, e2, sqrt_quarter]
    have h : 2 * Real.pi * 0.5 = Real.pi := by ring
    rw [h, Real.cos_pi, Real.sin_pi]
    norm_num

/-- Witness of C5: the specification's example.  With `RAND_MAX = 32768` and
`rand()` returning 8192 and then 16384 (`r1 = 0.25`, `r2 = 0.5`), the radial
distance is 50, the angle is `pi`, and `addUniformPoint` turns the empty
list into the single point `(500 - 50, 150 + 0)`. -/
theorem addUniformPoint_appends_witness :
    ((0 : ℤ) < 32768 ∧
      (0 ≤ (startState exampleDraws : State ℝ).randSeq 0 ∧
        (startState exampleDraws : State ℝ).randSeq 0 ≤ 32768) ∧
      (0 ≤ (startState exampleDraws : State ℝ).randSeq 1 ∧
        (startState exampleDraws : State ℝ).randSeq 1 ≤ 32768)) ∧
    (addUniformPoint.randX 32768 8192 : ℝ) = 50 ∧
    (addUniformPoint.rotationAngle 32768 16384 : ℝ) = Real.pi ∧
    (addUniformPoint 32768 (startState exampleDraws : State ℝ)).uniformPoints =
      [⟨500 + (-50), 150 + 0⟩] := by
  have hdraws : (0 : ℤ) < 32768 ∧
      (0 ≤ (startState exampleDraws : State ℝ).randSeq 0 ∧
        (startState exampleDraws : State ℝ).randSeq 0 ≤ 32768) ∧
      (0 ≤ (startState exampleDraws : State ℝ).randSeq 1 ∧
        (startState exampleDraws : State ℝ).randSeq 1 ≤ 32768) := by
    simp [startState, exampleDraws]
  have h := (addUniformPoint_appends 32768 (startState exampleDraws)
    hdraws.1 hdraws.2.1 hdraws.2.2).2.2.2.2.2
    (by simp [startState, exampleDraws, unitDraw_real]; norm_num)
    (by simp [startState, exampleDraws, unitDraw_real]; norm_num)
  exact ⟨hdraws, h.1, h.2.1, h.2.2⟩

open MeasureTheory in
/-- C6: the uniform sampler is area-uniform in its radial coordinate.  With
exact real arithmetic, for `0 ≤ rho ≤ 100` and a first draw in
`[0, RAND_MAX]`, the point that `addUniformPoint` appends lies within distance
`rho` of `UNIFORM_CIRCLE_CENTER` if and only if the unit draw
`r1 = k1 / RAND_MAX` satisfies `r1 ≤ (rho / 100) ^ 2`, whatever the second
draw.  The radial distance of the code is the specification's
`sqrt(r1) * radius`, and for `r1` uniform on `[0, 1]` (Lebesgue measure on the
unit interval) the disk of radius `rho` has probability `rho ^ 2 / 100 ^ 2`
and the annulus `[rho1, rho2]` has probability
`(rho2 ^ 2 - rho1 ^ 2) / 100 ^ 2`. -/
theorem addUniformPoint_area_uniform (RAND_MAX : ℤ) (s : State ℝ) (rho : ℝ)
    (hR : 0 < RAND_MAX) (h1 : 0 ≤ s.randSeq 0 ∧ s.randSeq 0 ≤ RAND_MAX)
    (hrho : 0 ≤ rho ∧ rho ≤ 100) :
    (∃ p, (addUniformPoint RAND_MAX s).uniformPoints = s.uniformPoints ++ [p] ∧
      (euclideanDistance p UNIFORM_CIRCLE_CENTER ≤ rho ↔
        (unitDraw RAND_MAX (s.randSeq 0) : ℝ) ≤ (rho / 100) ^ 2)) ∧
    (addUniformPoint.randX RAND_MAX (s.randSeq 0) : ℝ) =
      specUniformDistance CIRCLE_RADIUS (unitDraw RAND_MAX (s.randSeq 0)) ∧
    volume {r1 : ℝ | r1 ∈ Set.Icc (0 : ℝ) 1 ∧ specUniformDistance CIRCLE_RADIUS r1 ≤ rho} =
      ENNReal.ofReal (rho ^ 2 / 100 ^ 2) ∧
    (∀ rho1 rho2 : ℝ, 0 ≤ rho1 → rho1 ≤ rho2 → rho2 ≤ 100 →
      volume {r1 : ℝ | r1 ∈ Set.Icc (0 : ℝ) 1 ∧ rho1 ≤ specUniformDistance CIRCLE_RADIUS r1 ∧
          specUniformDistance CIRCLE_RADIUS r1 ≤ rho2} =
        ENNReal.ofReal ((rho2 ^ 2 - rho1 ^ 2) / 100 ^ 2)) := by
  refine ⟨⟨_, by rw [addUniformPoint_eq], uniform_within_iff _ _ _ hrho.1⟩, ?_,
    volume_uniform_disk hrho.1 hrho.2, fun rho1 rho2 ha hb hc => volume_uniform_annulus ha hb hc⟩
  rw [uniform_randX_real, specUniformDistance_real]

open MeasureTheory in
/-- Witness of C6: `RAND_MAX = 2147483647`, the draws `sampleDraws`, the
half-radius disk `rho = 50`. -/
theorem addUniformPoint_area_uniform_witness :
    ((0 : ℤ) < 2147483647 ∧
      (0 ≤ (startState sampleDraws : State ℝ).randSeq 0 ∧
        (startState sampleDraws : State ℝ).randSeq 0 ≤ 2147483647) ∧
      ((0 : ℝ) ≤ 50 ∧ (50 : ℝ) ≤ 100)) ∧
    (∃ p, (addUniformPoint 2147483647 (startState sampleDraws : State ℝ)).uniformPoints =
        (startState sampleDraws : State ℝ).uniformPoints ++ [p] ∧
      (euclideanDistance p UNIFORM_CIRCLE_CENTER ≤ 50 ↔
        (unitDraw 2147483647 ((startState sampleDraws : State ℝ).randSeq 0) : ℝ)
          ≤ (50 / 100) ^ 2)) ∧
    volume {r1 : ℝ | r1 ∈ Set.Icc (0 : ℝ) 1 ∧ specUniformDistance CIRCLE_RADIUS r1 ≤ 50} =
      ENNReal.ofReal (50 ^ 2 / 100 ^ 2) := by
  have hyp : (0 : ℤ) < 2147483647 ∧
      (0 ≤ (startState sampleDraws : State ℝ).randSeq 0 ∧
        (startState sampleDraws : State ℝ).randSeq 0 ≤ 2147483647) ∧
      ((0 : ℝ) ≤ 50 ∧ (50 : ℝ) ≤ 100) :=
    ⟨by norm_num, sampleDraws_range 0, by norm_num, by norm_num⟩
  have h := addUniformPoint_area_uniform 2147483647 (startState sampleDraws) 50
    hyp.1 hyp.2.1 hyp.2.2
  exact ⟨hyp, h.1, h.2.2.1⟩

open MeasureTheory in
/-- C7: the inner half-radius disk.  With exact real arithmetic and a first
draw in `[0, RAND_MAX]`, the point appended by `addUniformPoint` lies within
distance 50 of its centre iff the unit draw `r1` is at most `1/4`, and the
point appended by `addNonUniformPoint` lies within distance 50 of its centre
iff `r1 ≤ 1/2`; for `r1` uniform on `[0, 1]` these are shares of `1/4`
(which is `(1/2) ^ 2`) and `1/2`, and `1/4 < 1/2`.  More generally, for
`0 < rho < 100` the thresholds are `(rho / 100) ^ 2` and `rho / 100`, and
`(rho / 100) ^ 2 < rho / 100`. -/
theorem half_radius_disk_shares (RAND_MAX : ℤ) (s : State ℝ) (hR : 0 < RAND_MAX)
    (h1 : 0 ≤ s.randSeq 0 ∧ s.randSeq 0 ≤ RAND_MAX) :
    (∃ p, (addUniformPoint RAND_MAX s).uniformPoints = s.uniformPoints ++ [p] ∧
      (euclideanDistance p UNIFORM_CIRCLE_CENTER ≤ 50 ↔
        (unitDraw RAND_MAX (s.randSeq 0) : ℝ) ≤ 1 / 4)) ∧
    (∃ q, (addNonUniformPoint RAND_MAX s).nonUniformPoints = s.nonUniformPoints ++ [q] ∧
      (euclideanDistance q NON_UNIFORM_CIRCLE_CENTER ≤ 50 ↔
        (unitDraw RAND_MAX (s.randSeq 0) : ℝ) ≤ 1 / 2)) ∧
    volume {r1 : ℝ | r1 ∈ Set.Icc (0 : ℝ) 1 ∧ specUniformDistance CIRCLE_RADIUS r1 ≤ 50} =
      ENNReal.ofReal (1 / 4) ∧
    volume {r1 : ℝ | r1 ∈ Set.Icc (0 : ℝ) 1 ∧ specNonUniformDistance CIRCLE_RADIUS r1 ≤ 50} =
      ENNReal.ofReal (1 / 2) ∧
    ((1 : ℝ) / 4 = (1 / 2) ^ 2 ∧ (1 : ℝ) / 4 < 1 / 2) ∧
    (∀ rho : ℝ, 0 < rho → rho < 100 →
      (∃ p, (addUniformPoint RAND_MAX s).uniformPoints = s.uniformPoints ++ [p] ∧
        (euclideanDistance p UNIFORM_CIRCLE_CENTER ≤ rho ↔
          (unitDraw RAND_MAX (s.randSeq 0) : ℝ) ≤ (rho / 100) ^ 2)) ∧
      (∃ q, (addNonUniformPoint RAND_MAX s).nonUniformPoints = s.nonUniformPoints ++ [q] ∧
        (euclideanDistance q NON_UNIFORM_CIRCLE_CENTER ≤ rho ↔
          (unitDraw RAND_MAX (s.randSeq 0) : ℝ) ≤ rho / 100)) ∧
      (rho / 100) ^ 2 < rho / 100) := by
  refine ⟨⟨_, by rw [addUniformPoint_eq], ?_⟩, ⟨_, by rw [addNonUniformPoint_eq], ?_⟩,
    ?_, ?_, ⟨by norm_num, by norm_num⟩, fun rho h0 h100 =>
      ⟨⟨_, by rw [addUniformPoint_eq], uniform_within_iff _ _ _ h0.le⟩,
        ⟨_, by rw [addNonUniformPoint_eq], nonUniform_within_iff _ _ hR h1.1⟩, ?_⟩⟩
  · rw [uniform_within_iff _ _ _ (by norm_num : (0 : ℝ) ≤ 50)]
    norm_num
  · rw [nonUniform_within_iff _ _ hR h1.1]
    norm_num
  · rw [volume_uniform_disk (by norm_num) (by norm_num)]
    norm_num
  · rw [volume_nonUniform_disk (by norm_num) (by norm_num)]
    norm_num
  · have ha : 0 < rho / 100 := div_pos h0 (by norm_num)
    have hb : rho / 100 < 1 := by
      rw [div_lt_one (by norm_num : (0 : ℝ) < 100)]
      exact h100
    nlinarith

/-- Witness of C7: `RAND_MAX = 2147483647` and the draws `sampleDraws`. -/
theorem half_radius_disk_shares_witness :
    ((0 : ℤ) < 2147483647 ∧
      (0 ≤ (startState sampleDraws : State ℝ).randSeq 0 ∧
        (startState sampleDraws : State ℝ).randSeq 0 ≤ 2147483647)) ∧
    (∃ p, (addUniformPoint 2147483647 (startState sampleDraws : State ℝ)).uniformPoints =
        (startState sampleDraws : State ℝ).uniformPoints ++ [p] ∧
      (euclideanDistance p UNIFORM_CIRCLE_CENTER ≤ 50 ↔
        (unitDraw 2147483647 ((startState sampleDraws : State ℝ).randSeq 0) : ℝ) ≤ 1 / 4)) ∧
    (∃ q, (addNonUniformPoint 2147483647 (startState sampleDraws : State ℝ)).nonUniformPoints =
        (startState sampleDraws : State ℝ).nonUniformPoints ++ [q] ∧
      (euclideanDistance q NON_UNIFORM_CIRCLE_CENTER ≤ 50 ↔
        (unitDraw 2147483647 ((startState sampleDraws : State ℝ).randSeq 0) : ℝ) ≤ 1 / 2)) := by
  have hyp : (0 : ℤ) < 2147483647 ∧
      (0 ≤ (startState sampleDraws : State ℝ).randSeq 0 ∧
        (startState sampleDraws : State ℝ).randSeq 0 ≤ 2147483647) :=
    ⟨by norm_num, sampleDraws_range 0⟩
  have h := half_radius_disk_shares 2147483647 (startState sampleDraws) hyp.1 hyp.2
  exact ⟨hyp, h.1, h.2.1⟩

/-- C8: the keyboard handler regenerates on `a` or `A` only.  For every scalar
type, key byte, mouse position and state: if the key is `a` or `A`, the two
lists after `keyboard` are those that `generatePoints` produces from that
state; for every other key both lists are unchanged and no value of `rand()`
is consumed. -/
theorem keyboard_regenerates_only_on_a {F : Type} [Add F] [Mul F] [Div F] [IntCast F]
    [CMath F] (RAND_MAX : ℤ) (key : ℕ) (x y : ℤ) (s : State F) :
    ((key = Char.toNat 'a' ∨ key = Char.toNat 'A') →
      (keyboard RAND_MAX key x y s).nonUniformPoints =
        (generatePoints RAND_MAX s).nonUniformPoints ∧
      (keyboard RAND_MAX key x y s).uniformPoints =
        (generatePoints RAND_MAX s).uniformPoints) ∧
    (¬ (key = Char.toNat 'a' ∨ key = Char.toNat 'A') →
      (keyboard RAND_MAX key x y s).nonUniformPoints = s.nonUniformPoints ∧
      (keyboard RAND_MAX key x y s).uniformPoints = s.uniformPoints ∧
      (keyboard RAND_MAX key x y s).randSeq = s.randSeq) := by
  constructor
  · intro h
    rw [keyboard_of_a RAND_MAX x y s h]
    exact ⟨glutPostRedisplay_nonUniformPoints _, glutPostRedisplay_uniformPoints _⟩
  · intro h
    rw [keyboard_of_other RAND_MAX x y s h]
    exact ⟨glutPostRedisplay_nonUniformPoints _, glutPostRedisplay_uniformPoints _,
      glutPostRedisplay_randSeq _⟩

/-- Counterexample to C9 as stated: when `rand()` returns `RAND_MAX`
(here 2147483647) the rotation angle of either sampler is exactly `2 * pi`,
which is not below `2 * pi`. -/
theorem rotationAngle_reaches_two_pi :
    ((0 : ℤ) ≤ 2147483647 ∧ (2147483647 : ℤ) ≤ 2147483647) ∧
    (addUniformPoint.rotationAngle 2147483647 2147483647 : ℝ) = 2 * Real.pi ∧
    (addNonUniformPoint.rotationAngle 2147483647 2147483647 : ℝ) = 2 * Real.pi ∧
    ¬ ((addUniformPoint.rotationAngle 2147483647 2147483647 : ℝ) < 2 * Real.pi) ∧
    ¬ ((addNonUniformPoint.rotationAngle 2147483647 2147483647 : ℝ) < 2 * Real.pi) := by
  have hu : (addUniformPoint.rotationAngle 2147483647 2147483647 : ℝ) = 2 * Real.pi := by
    rw [uniform_rotationAngle_real, unitDraw_real]
    norm_num
  have hn : (addNonUniformPoint.rotationAngle 2147483647 2147483647 : ℝ) = 2 * Real.pi := by
    rw [nonUniform_rotationAngle_real, unitDraw_real]
    norm_num
  refine ⟨⟨by norm_num, le_rfl⟩, hu, hn, ?_, ?_⟩
  · rw [hu]
    exact lt_irrefl _
  · rw [hn]
    exact lt_irrefl _

/-- C9, amended: for every value `k` of `rand()` with `0 ≤ k ≤ RAND_MAX`, the
rotation angle `(k / RAND_MAX) * 2 * pi` of `addUniformPoint` lies in the
closed interval `[0, 2 * pi]`, it is below `2 * pi` exactly when
`k < RAND_MAX`, and `addNonUniformPoint` computes the same angle from its
second draw. -/
theorem rotationAngle_range (RAND_MAX k : ℤ) (hR : 0 < RAND_MAX) (h0 : 0 ≤ k)
    (h1 : k ≤ RAND_MAX) :
    (0 : ℝ) ≤ addUniformPoint.rotationAngle RAND_MAX k ∧
    (addUniformPoint.rotationAngle RAND_MAX k : ℝ) ≤ 2 * Real.pi ∧
    ((addUniformPoint.rotationAngle RAND_MAX k : ℝ) < 2 * Real.pi ↔ k < RAND_MAX) ∧
    (addNonUniformPoint.rotationAngle RAND_MAX k : ℝ) = addUniformPoint.rotationAngle RAND_MAX k ∧
    (addUniformPoint.rotationAngle RAND_MAX k : ℝ) = unitDraw RAND_MAX k * (2 * Real.pi) :=
  ⟨rotationAngle_nonneg hR h0, rotationAngle_le hR h1, rotationAngle_lt_iff k hR, rfl,
    uniform_rotationAngle_real RAND_MAX k⟩

/-- Witness of C9, amended: `RAND_MAX = 2147483647` and `k = 1073741823`. -/
theorem rotationAngle_range_witness :
    ((0 : ℤ) < 2147483647 ∧ (0 : ℤ) ≤ 1073741823 ∧ (1073741823 : ℤ) ≤ 2147483647) ∧
    (0 : ℝ) ≤ addUniformPoint.rotationAngle 2147483647 1073741823 ∧
    (addUniformPoint.rotationAngle 2147483647 1073741823 : ℝ) ≤ 2 * Real.pi ∧
    (addUniformPoint.rotationAngle 2147483647 1073741823 : ℝ) < 2 * Real.pi := by
  have h := rotationAngle_range 2147483647 1073741823 (by norm_num) (by norm_num) (by norm_num)
  exact ⟨⟨by norm_num, by norm_num, by norm_num⟩, h.1, h.2.1, h.2.2.1.2 (by norm_num)⟩

/-- C10: every generated point is visible and the two clouds never mix.  With
exact real arithmetic and every value of `rand()` in `[0, RAND_MAX]`, after
`generatePoints` every point of `nonUniformPoints` has `50 ≤ x ≤ 250` and
`50 ≤ y ≤ 250`, every point of `uniformPoints` has `400 ≤ x ≤ 600` and
`50 ≤ y ≤ 250`; all of them lie in `[0, SCREEN_WIDTH] x [0, SCREEN_HEIGHT]`,
which is the projection `[0, 700] x [0, 350]` that `init` sets up; no point
of one list lies within distance 100 of the other list's centre; the centres
are 350 apart, more than `2 * 100`. -/
theorem generatePoints_visible_and_apart (RAND_MAX : ℤ) (s : State ℝ)
    (hR : 0 < RAND_MAX) (hdraws : ∀ i, 0 ≤ s.randSeq i ∧ s.randSeq i ≤ RAND_MAX) :
    (∀ p ∈ (generatePoints RAND_MAX s).nonUniformPoints,
      (50 ≤ p.x ∧ p.x ≤ 250 ∧ 50 ≤ p.y ∧ p.y ≤ 250) ∧
      (0 ≤ p.x ∧ p.x ≤ (SCREEN_WIDTH : ℝ) ∧ 0 ≤ p.y ∧ p.y ≤ (SCREEN_HEIGHT : ℝ)) ∧
      ¬ euclideanDistance p UNIFORM_CIRCLE_CENTER ≤ 100) ∧
    (∀ p ∈ (generatePoints RAND_MAX s).uniformPoints,
      (400 ≤ p.x ∧ p.x ≤ 600 ∧ 50 ≤ p.y ∧ p.y ≤ 250) ∧
      (0 ≤ p.x ∧ p.x ≤ (SCREEN_WIDTH : ℝ) ∧ 0 ≤ p.y ∧ p.y ≤ (SCREEN_HEIGHT : ℝ)) ∧
      ¬ euclideanDistance p NON_UNIFORM_CIRCLE_CENTER ≤ 100) ∧
    (∀ (seeded : ℕ → ℤ) (s0 : State ℝ),
      (init RAND_MAX seeded s0).projection = some (0, 700, 0, 350) ∧
      (init RAND_MAX seeded s0).nonUniformPoints =
        (generatePoints RAND_MAX (startState seeded : State ℝ)).nonUniformPoints ∧
      (init RAND_MAX seeded s0).uniformPoints =
        (generatePoints RAND_MAX (startState seeded : State ℝ)).uniformPoints) ∧
    ((SCREEN_WIDTH : ℝ) = 700 ∧ (SCREEN_HEIGHT : ℝ) = 350) ∧
    euclideanDistance (UNIFORM_CIRCLE_CENTER : vec2 ℝ) NON_UNIFORM_CIRCLE_CENTER = 350 ∧
    (2 * 100 : ℝ) < 350 := by
  have hW : (SCREEN_WIDTH : ℝ) = 700 := by simp [SCREEN_WIDTH]
  have hH : (SCREEN_HEIGHT : ℝ) = 350 := by simp [SCREEN_HEIGHT]
  refine ⟨fun p hp => ?_, fun p hp => ?_, fun seeded s0 => ⟨?_, ?_, ?_⟩, ⟨hW, hH⟩, ?_,
    by norm_num⟩
  · rw [generatePoints_nonUniformPoints] at hp
    obtain ⟨i, rfl⟩ := mem_pushed hp
    have hb := nonUniform_point_box (s.randSeq (2 * i + 1)) hR (hdraws (2 * i))
    refine ⟨hb, ?_, ?_⟩
    · rw [hW, hH]
      refine ⟨?_, ?_, ?_, ?_⟩ <;> linarith [hb.1, hb.2.1, hb.2.2.1, hb.2.2.2]
    · refine not_le.2 (euclideanDistance_gt_of_abscissa (Or.inl ?_))
      have hc : (UNIFORM_CIRCLE_CENTER : vec2 ℝ).x = 500 := by simp [UNIFORM_CIRCLE_CENTER]
      rw [hc]
      linarith [hb.2.1]
  · rw [generatePoints_uniformPoints] at hp
    obtain ⟨i, rfl⟩ := mem_pushed hp
    have hb := uniform_point_box (s.randSeq (2 * i + 1 + 10000)) hR (hdraws (2 * i + 10000))
    refine ⟨hb, ?_, ?_⟩
    · rw [hW, hH]
      refine ⟨?_, ?_, ?_, ?_⟩ <;> linarith [hb.1, hb.2.1, hb.2.2.1, hb.2.2.2]
    · refine not_le.2 (euclideanDistance_gt_of_abscissa (Or.inr ?_))
      have hc : (NON_UNIFORM_CIRCLE_CENTER : vec2 ℝ).x = 150 := by
        simp [NON_UNIFORM_CIRCLE_CENTER]
      rw [hc]
      linarith [hb.1]
  · simp [init, generatePoints_eq, SCREEN_WIDTH, SCREEN_HEIGHT]
  · unfold init
    rw [generatePoints_nonUniformPoints, generatePoints_nonUniformPoints]
    rfl
  · unfold init
    rw [generatePoints_uniformPoints, generatePoints_uniformPoints]
    rfl
  · unfold euclideanDistance UNIFORM_CIRCLE_CENTER NON_UNIFORM_CIRCLE_CENTER
    rw [sqrt_real]
    have h : (((500 : ℤ) : ℝ) - ((150 : ℤ) : ℝ)) * (((500 : ℤ) : ℝ) - ((150 : ℤ) : ℝ))
        + (((150 : ℤ) : ℝ) - ((150 : ℤ) : ℝ)) * (((150 : ℤ) : ℝ) - ((150 : ℤ) : ℝ))
        = 350 ^ 2 := by norm_num
    rw [h]
    exact Real.sqrt_sq (by norm_num)

/-- Witness of C10: `RAND_MAX = 2147483647`, the draws `sampleDraws`, and a
prior state whose lists are not empty. -/
theorem generatePoints_visible_and_apart_witness :
    ((0 : ℤ) < 2147483647 ∧
      ∀ i, 0 ≤ (usedState sampleDraws : State ℝ).randSeq i ∧
        (usedState sampleDraws : State ℝ).randSeq i ≤ 2147483647) ∧
    (∀ p ∈ (generatePoints 2147483647 (usedState sampleDraws : State ℝ)).nonUniformPoints,
      (50 ≤ p.x ∧ p.x ≤ 250 ∧ 50 ≤ p.y ∧ p.y ≤ 250) ∧
      (0 ≤ p.x ∧ p.x ≤ (SCREEN_WIDTH : ℝ) ∧ 0 ≤ p.y ∧ p.y ≤ (SCREEN_HEIGHT : ℝ)) ∧
      ¬ euclideanDistance p UNIFORM_CIRCLE_CENTER ≤ 100) ∧
    (∀ p ∈ (generatePoints 2147483647 (usedState sampleDraws : State ℝ)).uniformPoints,
      (400 ≤ p.x ∧ p.x ≤ 600 ∧ 50 ≤ p.y ∧ p.y ≤ 250) ∧
      (0 ≤ p.x ∧ p.x ≤ (SCREEN_WIDTH : ℝ) ∧ 0 ≤ p.y ∧ p.y ≤ (SCREEN_HEIGHT : ℝ)) ∧
      ¬ euclideanDistance p NON_UNIFORM_CIRCLE_CENTER ≤ 100) := by
  have h := generatePoints_visible_and_apart 2147483647 (usedState sampleDraws)
    (by norm_num) sampleDraws_range
  exact ⟨⟨by norm_num, sampleDraws_range⟩, h.1, h.2.1⟩

end Claims

end RandomPointInCircle
